import Mathlib

/-!
Verification of the attendance data transformation pipeline of the
kumi-dashboard repository: the duration normalizer `parseMinutes`, the
record filter `filteredCurrentRecords`, and the chart aggregators
`statusChartData` and `timeChartData`, embedded shallowly from the
source of `App.tsx`.
-/

namespace KumiDashboard

/-- The `time_spent` field: `string | number | null` in the source.
Numbers are modelled as integers (the spec leaves fractional values
implementation-defined). -/
inductive TimeSpent where
  | none : TimeSpent
  | num : Int → TimeSpent
  | str : String → TimeSpent
deriving DecidableEq, Repr

/-- The `AttendanceRecord` type of the source. -/
structure AttendanceRecord where
  id : Int
  student_id : Int
  student_name : String
  status : String
  parent_notified : Bool
  checkin_time : Option String
  checkout_time : Option String
  time_spent : TimeSpent
  date : Option String
deriving DecidableEq, Repr

/-- JavaScript `\s` for the characters relevant here (ASCII whitespace). -/
def jsWhitespace (c : Char) : Bool :=
  c == ' ' || c == '\t' || c == '\n' || c == '\r' || c == '\x0b' || c == '\x0c'

/-- Numeric value of a digit string, as JavaScript `Number` computes it on a
string of decimal digits; the empty string yields `0` (JS `Number("") = 0`). -/
def digitsVal (l : List Char) : Nat :=
  l.foldl (fun a c => a * 10 + (c.toNat - 48)) 0

/-- One attempt of the regex `(\d+)h\s*(\d+)?m?` anchored at the head of `l`:
a nonempty digit run, the letter `h`, optional whitespace, an optional digit
run (the optional `m` consumes nothing relevant to the captures). Returns the
captured hour and minute values. -/
def matchAt (l : List Char) : Option (Nat × Nat) :=
  let ds := l.takeWhile Char.isDigit
  if ds.isEmpty then Option.none
  else
    match l.drop ds.length with
    | 'h' :: rest =>
        let ms := (rest.dropWhile jsWhitespace).takeWhile Char.isDigit
        Option.some (digitsVal ds, digitsVal ms)
    | _ => Option.none

/-- Leftmost match of `(\d+)h\s*(\d+)?m?` in `l`, as `String.prototype.match`
finds it: try each start position left to right. -/
def hourMatch : List Char → Option (Nat × Nat)
  | [] => Option.none
  | c :: rest =>
      match matchAt (c :: rest) with
      | Option.some r => Option.some r
      | Option.none => hourMatch rest

/-- `parseMinutes` from `App.tsx` lines 44-57: null yields 0, a number is
returned unchanged, a string is lowercased and parsed either by the
hour/minute regex (when it contains `h`) or by stripping non-digits. -/
def parseMinutes : TimeSpent → Int
  | TimeSpent.none => 0
  | TimeSpent.num n => n
  | TimeSpent.str s =>
      let str := s.data.map Char.toLower
      if str.contains 'h' then
        match hourMatch str with
        | Option.none => 0
        | Option.some (h, m) => ((h * 60 + m : Nat) : Int)
      else
        ((digitsVal (str.filter Char.isDigit) : Nat) : Int)

/-- `needle` occurs at the head of `hay`. -/
def isSubAt : List Char → List Char → Bool
  | [], _ => true
  | _ :: _, [] => false
  | a :: as, b :: bs => a == b && isSubAt as bs

/-- JavaScript `hay.includes(needle)`: substring containment. -/
def containsSub (hay needle : List Char) : Bool :=
  match hay with
  | [] => needle.isEmpty
  | _ :: t => isSubAt needle hay || containsSub t needle

/-- The per-record predicate of `filteredCurrentRecords` (lines 134-144):
case-insensitive substring search on the student name, exact status match
with sentinel "all", tri-state parent-notified match. -/
def matchesRecord (search statusFilter notifiedFilter : String)
    (row : AttendanceRecord) : Bool :=
  let matchesSearch :=
    containsSub (row.student_name.data.map Char.toLower)
      (search.data.map Char.toLower)
  let matchesStatus := statusFilter == "all" || row.status == statusFilter
  let matchesNotified :=
    notifiedFilter == "all" ||
      (notifiedFilter == "yes" && row.parent_notified) ||
      (notifiedFilter == "no" && !row.parent_notified)
  matchesSearch && matchesStatus && matchesNotified

/-- `filteredCurrentRecords` from `App.tsx` lines 133-146. -/
def filteredCurrentRecords (records : List AttendanceRecord)
    (search statusFilter notifiedFilter : String) : List AttendanceRecord :=
  records.filter (matchesRecord search statusFilter notifiedFilter)

/-- The accumulator of the `reduce` in `statusChartData`. -/
structure StatusCounts where
  checkedIn : Nat
  checkedOut : Nat
  notified : Nat
deriving DecidableEq, Repr

/-- The reducer body of `statusChartData` (lines 151-155): each of the three
counters increments independently. -/
def statusStep (acc : StatusCounts) (row : AttendanceRecord) : StatusCounts :=
  let acc1 := if row.status == "checked_in"
    then { acc with checkedIn := acc.checkedIn + 1 } else acc
  let acc2 := if row.status == "checked_out"
    then { acc1 with checkedOut := acc1.checkedOut + 1 } else acc1
  if row.parent_notified
    then { acc2 with notified := acc2.notified + 1 } else acc2

/-- The `reduce` of `statusChartData` over the source record list. -/
def statusCounts (source : List AttendanceRecord) : StatusCounts :=
  source.foldl statusStep ⟨0, 0, 0⟩

/-- `statusChartData` (lines 148-164): the three named chart bars. -/
def statusChartData (source : List AttendanceRecord) : List (String × Nat) :=
  let counts := statusCounts source
  [("Checked In", counts.checkedIn),
   ("Checked Out", counts.checkedOut),
   ("Notified", counts.notified)]

/-- A point of `timeChartData`: student name and normalized minutes. -/
structure DurationPoint where
  name : String
  minutes : Int
deriving DecidableEq, Repr

/-- `timeChartData` (lines 166-172): one point per record, in order. -/
def timeChartData (source : List AttendanceRecord) : List DurationPoint :=
  source.map (fun row => ⟨row.student_name, parseMinutes row.time_spent⟩)

/-- A textual duration the normalizer cannot parse: it contains `h` but the
regex finds no match, or it contains no `h` and stripping non-digits leaves
nothing. -/
def unparseable : TimeSpent → Bool
  | TimeSpent.str s =>
      let l := s.data.map Char.toLower
      if l.contains 'h' then (hourMatch l).isNone
      else (l.filter Char.isDigit).isEmpty
  | _ => false

/-- `needle` occurs as a contiguous substring of `hay`. -/
def SubstrOf (needle hay : List Char) : Prop :=
  ∃ p q, hay = p ++ needle ++ q

/-- Ann's record from the spec's end-to-end scenario. -/
def annRecord : AttendanceRecord :=
  ⟨1, 1, "Ann", "checked_in", true, Option.none, Option.none,
    TimeSpent.str "1h 15m", Option.none⟩

/-- Bo's record from the spec's end-to-end scenario. -/
def boRecord : AttendanceRecord :=
  ⟨2, 2, "Bo", "checked_out", false, Option.none, Option.none,
    TimeSpent.num 30, Option.none⟩

/-- A record whose status is neither checked_in nor checked_out. -/
def pendingRecord : AttendanceRecord :=
  ⟨3, 3, "Cy", "pending", true, Option.none, Option.none,
    TimeSpent.none, Option.none⟩

lemma parseMinutes_str_nonneg (s : String) : 0 ≤ parseMinutes (TimeSpent.str s) := by
  simp only [parseMinutes]
  split
  · split
    · exact le_refl 0
    · exact Int.natCast_nonneg _
  · exact Int.natCast_nonneg _

/-- C1 (corrected): the normalizer returns a nonnegative integer for every
absent or textual input; an already-numeric value is returned unchanged, so
the result is nonnegative provided the numeric input is. -/
theorem c1_minutes_nonneg (v : TimeSpent)
    (hnum : ∀ n : Int, v = TimeSpent.num n → 0 ≤ n) : 0 ≤ parseMinutes v := by
  cases v with
  | none => exact le_refl 0
  | num n => exact hnum n rfl
  | str s => exact parseMinutes_str_nonneg s

/-- Witness for C1 at the textual input "1h 30m". -/
theorem c1_minutes_nonneg_witness : 0 ≤ parseMinutes (TimeSpent.str "1h 30m") :=
  c1_minutes_nonneg (TimeSpent.str "1h 30m") (fun _ h => nomatch h)

/-- C1 counterexample: the numeric input -5 is returned unchanged, so the
claimed bound `parseMinutes v >= 0` fails on it. -/
theorem c1_counterexample : ¬ (0 ≤ parseMinutes (TimeSpent.num (-5))) := by
  decide

/-- C2: the normalizer and the aggregators are total functions of their
inputs (they are plain Lean definitions evaluating on every input);
unparseable textual duration input yields 0, and the aggregators produce
well-defined output of the expected shape for every record list. -/
theorem c2_total_no_failure (v : TimeSpent) (rs : List AttendanceRecord) :
    (unparseable v = true → parseMinutes v = 0)
    ∧ (timeChartData rs).length = rs.length
    ∧ (statusChartData rs).length = 3 := by
  refine ⟨?_, by simp [timeChartData], by simp [statusChartData]⟩
  intro hu
  cases v with
  | none => rfl
  | num _m => simp [unparseable] at hu
  | str s =>
      simp only [unparseable] at hu
      simp only [parseMinutes]
      by_cases hc : (s.data.map Char.toLower).contains 'h'
      · rw [if_pos hc] at hu ⊢
        rw [Option.isNone_iff_eq_none] at hu
        rw [hu]
      · rw [if_neg hc] at hu ⊢
        rw [List.isEmpty_iff] at hu
        rw [hu]
        rfl

/-- Witness for C2 at the unparseable input "hhh" (contains `h`, no match). -/
theorem c2_witness :
    unparseable (TimeSpent.str "hhh") = true
    ∧ parseMinutes (TimeSpent.str "hhh") = 0 :=
  ⟨by decide, (c2_total_no_failure (TimeSpent.str "hhh") []).1 (by decide)⟩

/-- C3: on textual input whose lowercase form contains `h`, the normalizer
is decided by the leftmost match of `(\d+)h\s*(\d+)?m?`: hours times 60 plus
the minute capture (0 when absent), and 0 when there is no match; with the
spec's examples "1h 30m", "1h", "2H 5M". -/
theorem c3_hour_branch (s : String) :
    ((s.data.map Char.toLower).contains 'h' = true →
      parseMinutes (TimeSpent.str s) =
        match hourMatch (s.data.map Char.toLower) with
        | Option.none => 0
        | Option.some (h, m) => ((h * 60 + m : Nat) : Int))
    ∧ parseMinutes (TimeSpent.str "1h 30m") = 90
    ∧ parseMinutes (TimeSpent.str "1h") = 60
    ∧ parseMinutes (TimeSpent.str "2H 5M") = 125 := by
  refine ⟨?_, by decide, by decide, by decide⟩
  intro hc
  simp only [parseMinutes, hc, if_true]

/-- Witness for C3 at the input "4h 2m". -/
theorem c3_witness : parseMinutes (TimeSpent.str "4h 2m") = 242 := by
  have h := (c3_hour_branch "4h 2m").1 (by decide)
  exact h.trans (by decide)

/-- C7: an absent duration yields 0, and textual input without an `h`
(case-insensitively) is normalized by stripping every non-digit character
and reading the remaining digits as a number, 0 when none remain; with the
spec's examples "45 min", "abc", "". -/
theorem c7_digit_branch (s : String) :
    parseMinutes TimeSpent.none = 0
    ∧ ((s.data.map Char.toLower).contains 'h' = false →
        parseMinutes (TimeSpent.str s) =
          ((digitsVal ((s.data.map Char.toLower).filter Char.isDigit) : Nat) : Int))
    ∧ parseMinutes (TimeSpent.str "45 min") = 45
    ∧ parseMinutes (TimeSpent.str "abc") = 0
    ∧ parseMinutes (TimeSpent.str "") = 0 := by
  refine ⟨rfl, ?_, by decide, by decide, by decide⟩
  intro hc
  simp only [parseMinutes, hc]
  rfl

/-- Witness for C7 at the input "12 of 34". -/
theorem c7_witness : parseMinutes (TimeSpent.str "12 of 34") = 1234 := by
  have h := ((c7_digit_branch "12 of 34").2.1 (by decide))
  exact h.trans (by decide)

/-- C9: aggregating the empty record list yields all-zero status counters
and an empty duration point list. -/
theorem c9_empty_aggregate :
    statusCounts [] = ⟨0, 0, 0⟩
    ∧ statusChartData [] =
        [("Checked In", 0), ("Checked Out", 0), ("Notified", 0)]
    ∧ timeChartData [] = ([] : List DurationPoint) :=
  ⟨rfl, rfl, rfl⟩

lemma status_not_both (r : AttendanceRecord)
    (h1 : (r.status == "checked_in") = true)
    (h2 : (r.status == "checked_out") = true) : False := by
  rw [beq_iff_eq] at h1 h2
  rw [h1] at h2
  exact absurd h2 (by decide)

lemma statusStep_le (acc : StatusCounts) (r : AttendanceRecord) :
    (statusStep acc r).checkedIn + (statusStep acc r).checkedOut
      ≤ acc.checkedIn + acc.checkedOut + 1 := by
  by_cases h1 : (r.status == "checked_in") = true
  · have h2 : (r.status == "checked_out") = false := by
      cases h : r.status == "checked_out"
      · rfl
      · exact absurd (status_not_both r h1 h) not_false
    cases hb : r.parent_notified <;> simp [statusStep, h1, h2, hb] <;> omega
  · have h1f : (r.status == "checked_in") = false := by
      cases h : r.status == "checked_in"
      · rfl
      · exact absurd h h1
    by_cases h2 : (r.status == "checked_out") = true <;>
      cases hb : r.parent_notified <;>
      simp [statusStep, h1f, h2, hb] <;> omega

lemma statusCounts_aux (rs : List AttendanceRecord) :
    ∀ acc : StatusCounts,
      (List.foldl statusStep acc rs).checkedIn
          + (List.foldl statusStep acc rs).checkedOut
        ≤ acc.checkedIn + acc.checkedOut + rs.length := by
  induction rs with
  | nil => intro acc; simp
  | cons r t ih =>
      intro acc
      simp only [List.foldl_cons, List.length_cons]
      have hstep := statusStep_le acc r
      have hrest := ih (statusStep acc r)
      omega

/-- C4: over any record list, the checked-in and checked-out counters of the
status summary sum to at most the number of records: each record increments
at most one of the two. -/
theorem c4_status_bound (rs : List AttendanceRecord) :
    (statusCounts rs).checkedIn + (statusCounts rs).checkedOut ≤ rs.length := by
  have h := statusCounts_aux rs ⟨0, 0, 0⟩
  simpa [statusCounts] using h

/-- C5: the duration chart has exactly one point per record, in input order:
at every index the point carries the record's student name verbatim and the
normalized minutes of its `time_spent`, duplicates included. -/
theorem c5_points (rs : List AttendanceRecord) (i : Nat) :
    (timeChartData rs).length = rs.length
    ∧ (timeChartData rs)[i]? = rs[i]?.map
        (fun r => DurationPoint.mk r.student_name (parseMinutes r.time_spent)) := by
  constructor
  · simp [timeChartData]
  · simp [timeChartData, List.getElem?_map]

/-- C6: the three counters of the reduce step increment independently: a
checked-in, parent-notified record bumps both its counters in the one step;
a record with an unrecognized status bumps neither status counter, still
bumps the notified counter exactly when `parent_notified` holds, and still
contributes a duration point. -/
theorem c6_independent_counters (acc : StatusCounts) (r : AttendanceRecord)
    (rs : List AttendanceRecord) :
    (r.status = "checked_in" → r.parent_notified = true →
      statusStep acc r = ⟨acc.checkedIn + 1, acc.checkedOut, acc.notified + 1⟩)
    ∧ (r.status ≠ "checked_in" → r.status ≠ "checked_out" →
        (statusStep acc r).checkedIn = acc.checkedIn
        ∧ (statusStep acc r).checkedOut = acc.checkedOut
        ∧ (statusStep acc r).notified =
            acc.notified + (if r.parent_notified then 1 else 0))
    ∧ (timeChartData (rs ++ [r])).length = rs.length + 1 := by
  refine ⟨?_, ?_, by simp [timeChartData]⟩
  · intro hs hb
    have h1 : (r.status == "checked_in") = true := by rw [hs]; rfl
    have h2 : (r.status == "checked_out") = false := by rw [hs]; rfl
    simp [statusStep, h1, h2, hb]
  · intro hs1 hs2
    have h1 : (r.status == "checked_in") = false := beq_eq_false_iff_ne.mpr hs1
    have h2 : (r.status == "checked_out") = false := beq_eq_false_iff_ne.mpr hs2
    cases hb : r.parent_notified <;> simp [statusStep, h1, h2, hb]

/-- Witness for C6: Ann's checked-in notified record bumps both counters;
the pending-status notified record bumps only the notified counter. -/
theorem c6_witness :
    statusStep ⟨0, 0, 0⟩ annRecord = ⟨1, 0, 1⟩
    ∧ (statusStep ⟨0, 0, 0⟩ pendingRecord).checkedIn = 0
    ∧ (statusStep ⟨0, 0, 0⟩ pendingRecord).notified = 0 + 1 := by
  refine ⟨(c6_independent_counters ⟨0, 0, 0⟩ annRecord []).1 rfl rfl, ?_, ?_⟩
  · exact ((c6_independent_counters ⟨0, 0, 0⟩ pendingRecord []).2.1
      (by decide) (by decide)).1
  · have h := ((c6_independent_counters ⟨0, 0, 0⟩ pendingRecord []).2.1
      (by decide) (by decide)).2.2
    simpa using h

lemma containsSub_nil_right (hay : List Char) : containsSub hay [] = true := by
  cases hay with
  | nil => rfl
  | cons c t => simp [containsSub, isSubAt]

/-- C10: filtering with the empty search string and both sentinels "all" is
the identity on the record list. -/
theorem c10_identity_filter (rs : List AttendanceRecord) :
    filteredCurrentRecords rs "" "all" "all" = rs := by
  rw [filteredCurrentRecords, List.filter_eq_self]
  intro r _
  have hdata : ("" : String).data.map Char.toLower = [] := rfl
  simp [matchesRecord, hdata, containsSub_nil_right]

lemma isSubAt_iff (needle : List Char) : ∀ hay : List Char,
    isSubAt needle hay = true ↔ ∃ q, hay = needle ++ q := by
  induction needle with
  | nil => intro hay; simp [isSubAt]
  | cons a as ih =>
      intro hay
      cases hay with
      | nil =>
          simp only [isSubAt, List.cons_append]
          constructor
          · intro h; exact absurd h (by decide)
          · rintro ⟨q, h⟩; exact absurd h (by simp)
      | cons b bs =>
          simp only [isSubAt, Bool.and_eq_true, beq_iff_eq, ih]
          constructor
          · rintro ⟨hab, q, hq⟩
            subst hab
            exact ⟨q, by rw [hq, List.cons_append]⟩
          · rintro ⟨q, hq⟩
            rw [List.cons_append] at hq
            injection hq with hx hy
            exact ⟨hx.symm, q, hy⟩

lemma containsSub_iff (hay needle : List Char) :
    containsSub hay needle = true ↔ SubstrOf needle hay := by
  unfold SubstrOf
  induction hay with
  | nil =>
      simp only [containsSub, List.isEmpty_iff]
      constructor
      · rintro rfl; exact ⟨[], [], rfl⟩
      · rintro ⟨p, q, h⟩
        exact (List.append_eq_nil.mp (List.append_eq_nil.mp h.symm).1).2
  | cons c t ih =>
      simp only [containsSub, Bool.or_eq_true, isSubAt_iff, ih]
      constructor
      · rintro (⟨q, hq⟩ | ⟨p, q, hq⟩)
        · exact ⟨[], q, by simpa using hq⟩
        · exact ⟨c :: p, q, by simp [hq]⟩
      · rintro ⟨p, q, hq⟩
        cases p with
        | nil => exact Or.inl ⟨q, by simpa using hq⟩
        | cons x xs =>
            rw [List.cons_append, List.cons_append, List.cons.injEq] at hq
            exact Or.inr ⟨xs, q, hq.2⟩

/-- C8: the record filter is exactly the conjunction of the three
predicates: case-insensitive substring match of the search text against the
student name, exact status match with sentinel "all", and tri-state
parent-notified match; on the spec's two-record scenario, filtering by
notified = "yes" keeps only Ann's record. -/
theorem c8_filter_semantics (rs : List AttendanceRecord)
    (search sf nf : String) (r : AttendanceRecord) :
    filteredCurrentRecords rs search sf nf = rs.filter (matchesRecord search sf nf)
    ∧ (matchesRecord search sf nf r = true ↔
        SubstrOf (search.data.map Char.toLower) (r.student_name.data.map Char.toLower)
        ∧ (sf = "all" ∨ r.status = sf)
        ∧ (nf = "all" ∨ (nf = "yes" ∧ r.parent_notified = true)
            ∨ (nf = "no" ∧ r.parent_notified = false)))
    ∧ filteredCurrentRecords [annRecord, boRecord] "" "all" "yes" = [annRecord] := by
  refine ⟨rfl, ?_, by decide⟩
  simp only [matchesRecord, Bool.and_eq_true, Bool.or_eq_true, beq_iff_eq,
    containsSub_iff, Bool.not_eq_true', and_assoc, or_assoc]

end KumiDashboard
